import Mathlib

/-!
Verification of the asyncio subprocess layer: `src/asyncio/subprocess.py`
(demultiplexing `SubprocessStreamProtocol` and the `Popen` handle) and
`src/asyncio/subprocess_stream.py` (per-pipe protocol variant).

Shallow embedding conventions:
* byte strings are `List Nat`;
* Python exceptions are values of `PyExc`; code that can raise returns
  `Except PyExc _`;
* the single-assignment futures of the runtime (the completion primitive
  collaborator) are modelled as explicit one-shot states, with done
  callbacks delivered at resolution time (single-threaded cooperative
  scheduling);
* calls into external collaborators (the process transport) are recorded
  as events in a trace.
-/

namespace AsyncioSpec

/-- Python byte strings, as lists of byte values. -/
abbrev Bytes := List Nat

/-- The Python exceptions that appear in this layer. -/
inductive PyExc where
  | processLookupError
  | timeoutError
  | keyError
  | brokenPipe
  | other (code : Nat)
deriving DecidableEq, Repr

/-! ## StreamReader / StreamWriter endpoints

`streams.StreamReader` and `streams.StreamWriter` are collaborator code of
this repository that is not under `src/`; `subprocess.py` only calls
`feed_data`, `feed_eof`, `set_exception` and `close` on them.  We model
exactly the state those calls touch: an append-only chunk buffer with an
EOF flag and an error slot for the reader, and a closed flag for the
writer. -/

/-- Buffered reader endpoint: fed chunks plus a terminal EOF/error marker. -/
structure StreamReader where
  fed : List Bytes
  eofSeen : Bool
  exc : Option PyExc
deriving DecidableEq, Repr

/-- A fresh reader: nothing fed, not at EOF, no error. -/
def StreamReader.new : StreamReader := ⟨[], false, none⟩

/-- Modelled from `streams.StreamReader.feed_data`: append the chunk. -/
def StreamReader.feed_data (r : StreamReader) (data : Bytes) : StreamReader :=
  { r with fed := r.fed ++ [data] }

/-- Modelled from `streams.StreamReader.feed_eof`: mark the terminal EOF. -/
def StreamReader.feed_eof (r : StreamReader) : StreamReader :=
  { r with eofSeen := true }

/-- Modelled from `streams.StreamReader.set_exception`: record the error. -/
def StreamReader.set_exception (r : StreamReader) (e : PyExc) : StreamReader :=
  { r with exc := some e }

/-- Writer endpoint for stdin; we track only whether `close` was called. -/
structure StreamWriter where
  closed : Bool
deriving DecidableEq, Repr

/-- Modelled from `streams.StreamWriter.close`: mark the writer closed. -/
def StreamWriter.close (w : StreamWriter) : StreamWriter :=
  { w with closed := true }

/-! ## SubprocessStreamProtocol (`src/asyncio/subprocess.py`, lines 18-81)

The demultiplexing bridge: optional stdin writer, optional stdout/stderr
readers.  `connLost` records the forward to the protocol's own
`connection_lost` finalization (inherited from `streams.FlowControlMixin`,
outside `src/`): `some exc` once forwarded with argument `exc`. -/

structure SubprocessStreamProtocol where
  stdin : Option StreamWriter
  stdout : Option StreamReader
  stderr : Option StreamReader
  connLost : Option (Option PyExc)
deriving DecidableEq, Repr

namespace SubprocessStreamProtocol

/-- Embedding of `SubprocessStreamProtocol.pipe_data_received` (subprocess.py
lines 47-55): fd 1 feeds stdout, fd 2 feeds stderr, any other fd selects no
reader and nothing happens.  The Python body cannot raise, so the embedding
is a total function on the state. -/
def pipe_data_received (p : SubprocessStreamProtocol) (fd : Nat) (data : Bytes) :
    SubprocessStreamProtocol :=
  if fd = 1 then
    match p.stdout with
    | some r => { p with stdout := some (r.feed_data data) }
    | none => p
  else if fd = 2 then
    match p.stderr with
    | some r => { p with stderr := some (r.feed_data data) }
    | none => p
  else
    p

/-- Embedding of `SubprocessStreamProtocol.pipe_connection_lost`
(subprocess.py lines 57-74): for fd 0 close the stdin writer when present
and forward to `self.connection_lost(exc)`; for fd 1/2 feed EOF when `exc`
is absent, otherwise set the exception on the reader; other fds select no
reader. -/
def pipe_connection_lost (p : SubprocessStreamProtocol) (fd : Nat)
    (exc : Option PyExc) : SubprocessStreamProtocol :=
  if fd = 0 then
    let p' := match p.stdin with
      | some w => { p with stdin := some w.close }
      | none => p
    { p' with connLost := some exc }
  else if fd = 1 then
    match p.stdout with
    | some r =>
      match exc with
      | none => { p with stdout := some r.feed_eof }
      | some e => { p with stdout := some (r.set_exception e) }
    | none => p
  else if fd = 2 then
    match p.stderr with
    | some r =>
      match exc with
      | none => { p with stderr := some r.feed_eof }
      | some e => { p with stderr := some (r.set_exception e) }
    | none => p
  else
    p

end SubprocessStreamProtocol

/-! ## Per-pipe protocol variant (`src/asyncio/subprocess_stream.py`)

`ReadSubprocessPipeStreamProto` owns one `StreamReader` per readable pipe;
the per-process `SubprocessStreamProtocol` of that file routes
`pipe_data_received` through the dict `self._pipes` (populated by the
`base_subprocess` transport, outside `src/`), so an fd with no registered
pipe raises `KeyError`. -/

/-- Read-pipe protocol of subprocess_stream.py (lines 47-67). -/
structure ReadSubprocessPipeStreamProto where
  stream_reader : StreamReader
deriving DecidableEq, Repr

/-- Embedding of `ReadSubprocessPipeStreamProto.data_received`: feed the
owned reader. -/
def ReadSubprocessPipeStreamProto.data_received
    (p : ReadSubprocessPipeStreamProto) (data : Bytes) :
    ReadSubprocessPipeStreamProto :=
  ⟨p.stream_reader.feed_data data⟩

/-- Embedding of `ReadSubprocessPipeStreamProto.connection_lost`
(subprocess_stream.py lines 56-61): EOF on no error, else record the
exception. -/
def ReadSubprocessPipeStreamProto.connection_lost
    (p : ReadSubprocessPipeStreamProto) (exc : Option PyExc) :
    ReadSubprocessPipeStreamProto :=
  match exc with
  | none => ⟨p.stream_reader.feed_eof⟩
  | some e => ⟨p.stream_reader.set_exception e⟩

/-- The per-process protocol of subprocess_stream.py (lines 70-103),
restricted to the read pipes that `pipe_data_received` can reach: the
`_pipes` dict is an association list from fd to read-pipe protocol. -/
structure StreamVariantProtocol where
  pipes : List (Nat × ReadSubprocessPipeStreamProto)
deriving DecidableEq, Repr

/-- Association-list update, mirroring assignment to a Python dict entry. -/
def updatePipe (ps : List (Nat × ReadSubprocessPipeStreamProto)) (fd : Nat)
    (p : ReadSubprocessPipeStreamProto) :
    List (Nat × ReadSubprocessPipeStreamProto) :=
  ps.map fun q => if q.1 = fd then (fd, p) else q

/-- Embedding of the stream variant's `pipe_data_received`
(subprocess_stream.py lines 97-99): `pipe = self._pipes[fd]` raises
`KeyError` when fd has no registered pipe, else the pipe's reader is fed. -/
def StreamVariantProtocol.pipe_data_received (p : StreamVariantProtocol)
    (fd : Nat) (data : Bytes) : Except PyExc StreamVariantProtocol :=
  match p.pipes.lookup fd with
  | none => .error .keyError
  | some pipe => .ok ⟨updatePipe p.pipes fd (pipe.data_received data)⟩

/-! ## FlowControlledWriter (`WriteSubprocessPipeStreamProto`,
subprocess_stream.py lines 8-44)

The one-shot drain waiter future is modelled by its done flag; resolving a
pending waiter delivers a `Resolution` (success or failure) to the
suspended drain caller, which the operations return alongside the new
state.  `resume_writing` has a Python `assert self._paused`, so the
embedding returns `none` (assertion failure) when not paused. -/

/-- A one-shot future's observable state: still pending, or already done. -/
inductive FutSlot where
  | pending
  | done
deriving DecidableEq, Repr

/-- What a resolved drain waiter delivers to its suspended caller. -/
inductive Resolution where
  | success
  | failure (e : PyExc)
deriving DecidableEq, Repr

/-- State of `WriteSubprocessPipeStreamProto`: the paused flag and the
single-slot drain waiter (`none` when no waiter is installed). -/
structure WriteSubprocessPipeStreamProto where
  paused : Bool
  drain_waiter : Option FutSlot
deriving DecidableEq, Repr

namespace WriteSubprocessPipeStreamProto

/-- Embedding of `resume_writing` (subprocess_stream.py lines 37-44):
assert paused; clear the flag; if a not-yet-done waiter is installed,
remove it and resolve it with success.  Returns the new state and the
resolution delivered to the drain caller, or `none` on assertion
failure. -/
def resume_writing (w : WriteSubprocessPipeStreamProto) :
    Option (WriteSubprocessPipeStreamProto × Option Resolution) :=
  if w.paused then
    match w.drain_waiter with
    | some .pending => some (⟨false, none⟩, some .success)
    | some .done => some (⟨false, none⟩, none)
    | none => some (⟨false, none⟩, none)
  else
    none

/-- Embedding of `connection_lost` (subprocess_stream.py lines 20-31):
only when paused, take the installed waiter out of the slot and, if not
yet done, resolve it with success when `exc` is absent or with `exc`
itself otherwise. -/
def connection_lost (w : WriteSubprocessPipeStreamProto)
    (exc : Option PyExc) :
    WriteSubprocessPipeStreamProto × Option Resolution :=
  if w.paused then
    match w.drain_waiter with
    | some .pending =>
      match exc with
      | none => ({ w with drain_waiter := none }, some .success)
      | some e => ({ w with drain_waiter := none }, some (.failure e))
    | some .done => ({ w with drain_waiter := none }, none)
    | none => (w, none)
  else
    (w, none)

end WriteSubprocessPipeStreamProto

/-! ## Completion broadcast and the `Popen` handle
(`src/asyncio/subprocess.py`, lines 76-135)

Futures live in an arena indexed by creation order; `Popen.__init__` for a
still-running process creates future 0, registers it in the protocol's
waiter deque and attaches `_set_returncode` as its done callback, so
resolving future 0 caches the exit code on the handle and sets the dead
flag.  Done callbacks are delivered at resolution time (single-threaded
cooperative model of `call_soon`). -/

/-- A completion future: pending or resolved with an exit code. -/
inductive RcFut where
  | pending
  | resolved (rc : Int)
deriving DecidableEq, Repr

/-- Joint state of the protocol's completion broadcaster and one `Popen`
handle: the future arena, the protocol's `_waiters` deque (future ids),
and the handle's `returncode`, `_dead` and `pid` attributes. -/
structure ProcState where
  futures : List RcFut
  waiters : List Nat
  returncode : Option Int
  dead : Bool
  pid : Nat
deriving DecidableEq, Repr

namespace ProcState

/-- Resolve future `fid` with `rc`; for future 0 this also runs the
`Popen._set_returncode` done callback (subprocess.py lines 102-105),
caching the exit code and setting the dead flag. -/
def set_result (s : ProcState) (fid : Nat) (rc : Int) : ProcState :=
  let s' := { s with futures := s.futures.set fid (.resolved rc) }
  if fid = 0 then { s' with returncode := some rc, dead := true } else s'

/-- Embedding of `SubprocessStreamProtocol.process_exited` (subprocess.py
lines 76-81): read the exit code from the transport (passed as `rc`) and
drain the waiter deque front to back, resolving each waiter with it. -/
def process_exited (s : ProcState) (rc : Int) : ProcState :=
  { s.waiters.foldl (fun t fid => t.set_result fid rc) s with waiters := [] }

/-- Outcome of one `wait()` call: the exit code returned immediately on
the fast path, or the id of the freshly registered waiter the caller
suspends on. -/
inductive WaitOutcome where
  | immediate (rc : Int)
  | registered (fid : Nat)
deriving DecidableEq, Repr

/-- Embedding of `Popen.wait` (subprocess.py lines 107-116): return the
cached exit code when present; otherwise create a fresh future, append it
to the protocol's waiter deque and suspend on it. -/
def wait (s : ProcState) : ProcState × WaitOutcome :=
  match s.returncode with
  | some rc => (s, .immediate rc)
  | none =>
    let fid := s.futures.length
    ({ s with futures := s.futures ++ [.pending], waiters := s.waiters ++ [fid] },
     .registered fid)

/-- Embedding of `Popen.__init__` (subprocess.py lines 85-100) for a
process whose transport still reports no exit code: future 0 is created,
registered in the waiter deque with the `_set_returncode` callback, and
the dead flag starts false. -/
def initRunning (pid : Nat) : ProcState :=
  ⟨[.pending], [0], none, false, pid⟩

/-- Embedding of `Popen.__init__` for a transport that already reports
exit code `rc`: no waiter is created and the handle starts dead. -/
def initExited (pid : Nat) (rc : Int) : ProcState :=
  ⟨[], [], some rc, true, pid⟩

end ProcState

/-! ## Signal forwarding and the dead flag
(`src/asyncio/subprocess.py`, lines 121-135)

Calls into the transport collaborator are recorded as `TransportCall`
events; each operation returns the list of transport calls it made
together with its outcome. -/

/-- A call forwarded to the process transport collaborator. -/
inductive TransportCall where
  | send_signal (sig : Nat)
  | terminate
  | kill
  | close
deriving DecidableEq, Repr

namespace Popen

/-- Embedding of `Popen._check_alive` (subprocess.py lines 121-123):
raise `ProcessLookupError` when the dead flag is set. -/
def check_alive (dead : Bool) : Except PyExc Unit :=
  if dead then .error .processLookupError else .ok ()

/-- Embedding of `Popen.send_signal` (subprocess.py lines 125-127):
`_check_alive`, then forward to the transport. -/
def send_signal (dead : Bool) (sig : Nat) :
    List TransportCall × Except PyExc Unit :=
  match check_alive dead with
  | .error e => ([], .error e)
  | .ok _ => ([.send_signal sig], .ok ())

/-- Embedding of `Popen.terminate` (subprocess.py lines 129-131). -/
def terminate (dead : Bool) : List TransportCall × Except PyExc Unit :=
  match check_alive dead with
  | .error e => ([], .error e)
  | .ok _ => ([.terminate], .ok ())

/-- Embedding of `Popen.kill` (subprocess.py lines 133-135). -/
def kill (dead : Bool) : List TransportCall × Except PyExc Unit :=
  match check_alive dead with
  | .error e => ([], .error e)
  | .ok _ => ([.kill], .ok ())

end Popen

/-! ## The timeout-bounded helper `call`
(`src/asyncio/subprocess.py`, lines 211-232)

The body is
`try: try: return wait_for(proc.wait(), timeout) except: proc.kill(); raise
finally: proc.close()`.
The awaited `wait_for` either completes with an exit code or fails (with
`TimeoutError` on deadline, or any other exception, e.g. cancellation);
the embedding takes that outcome and the handle's dead flag and returns
the transport calls made plus the surfaced result.  `Popen.close`
(lines 179-180) forwards to the transport unconditionally. -/

/-- Outcome of `tasks.wait_for(proc.wait(), timeout)`. -/
inductive WaitForOutcome where
  | completed (rc : Int)
  | failed (e : PyExc)
deriving DecidableEq, Repr

/-- Embedding of the `call` helper's try/except/finally (subprocess.py
lines 224-232): on success return the code; on failure run `proc.kill()`
(which itself raises `ProcessLookupError` when the handle is dead, in
which case that error replaces the one being re-raised); the `finally`
block runs `proc.close()` on every path. -/
def call (dead : Bool) (w : WaitForOutcome) :
    List TransportCall × Except PyExc Int :=
  match w with
  | .completed rc => ([.close], .ok rc)
  | .failed e =>
    match Popen.kill dead with
    | (evs, .ok _) => (evs ++ [.close], .error e)
    | (evs, .error e') => (evs ++ [.close], .error e')

/-! ## `communicate`
(`src/asyncio/subprocess.py`, lines 137-176)

Each sub-operation is a coroutine returning a value and performing
effects; `tasks.gather` joins all three before `wait()` runs.  We record
effects as `CommEvent`s; the gather join is sequentialised (the claim
properties — all sub-operation events precede the `wait()` call, and the
returned pair — do not depend on the interleaving).  The environment
carries the `input` argument (`none` models Python `None`) and, for each
of stdout/stderr, `none` when the corresponding reader attribute is
`None` or `some payload` where `payload` is what `read()` yields. -/

/-- An observable effect of one `communicate` sub-operation. -/
inductive CommEvent where
  | stdin_write (data : Bytes)
  | stdin_drain
  | stdin_close
  | stream_read (fd : Nat)
  | pipe_transport_close (fd : Nat)
  | wait_called
deriving DecidableEq, Repr

/-- Embedding of `Popen._feed_stdin` (subprocess.py lines 137-141):
write the input, await `drain`, close stdin; returns `None`. -/
def feed_stdin (input : Bytes) : List CommEvent × Option Bytes :=
  ([.stdin_write input, .stdin_drain, .stdin_close], none)

/-- Embedding of `Popen._noop` (subprocess.py lines 143-145). -/
def noopCoro : List CommEvent × Option Bytes :=
  ([], none)

/-- Embedding of `Popen._read_stream` (subprocess.py lines 147-156):
read the stream to its end, then close the pipe transport for `fd`;
returns the captured payload. -/
def read_stream (fd : Nat) (payload : Bytes) : List CommEvent × Option Bytes :=
  ([.stream_read fd, .pipe_transport_close fd], some payload)

/-- Environment a `communicate` call runs in. -/
structure CommEnv where
  input : Option Bytes
  stdoutPayload : Option Bytes
  stderrPayload : Option Bytes
deriving DecidableEq, Repr

/-- Embedding of `Popen.communicate` (subprocess.py lines 158-176):
choose `_feed_stdin` on a truthy `input` (Python `if input:` — `None` and
the empty byte string are falsy) else `_noop`; choose `_read_stream 1`/
`_read_stream 2` when the stdout/stderr reader exists else `_noop`;
gather the three, then call `wait()`, and return the (stdout, stderr)
pair of gathered values. -/
def communicate (env : CommEnv) : List CommEvent × (Option Bytes × Option Bytes) :=
  let stdinOp := match env.input with
    | some i => if i = [] then noopCoro else feed_stdin i
    | none => noopCoro
  let stdoutOp := match env.stdoutPayload with
    | some p => read_stream 1 p
    | none => noopCoro
  let stderrOp := match env.stderrPayload with
    | some p => read_stream 2 p
    | none => noopCoro
  (stdinOp.1 ++ stdoutOp.1 ++ stderrOp.1 ++ [.wait_called],
   (stdoutOp.2, stderrOp.2))

/-- Whether a `communicate` event touches the stdin endpoint. -/
def CommEvent.touchesStdin : CommEvent → Bool
  | .stdin_write _ => true
  | .stdin_drain => true
  | .stdin_close => true
  | _ => false

/-! ## Operation traces on the handle state (for the lifecycle invariants)

`stepOp` folds the state-relevant effect of each public operation or
transport event over `ProcState`: `wait` registers (or short-circuits),
`process_exited` broadcasts; signal operations and `close` read the dead
flag and forward to the transport but never write any of the handle
fields modelled here. -/

/-- One operation on, or event observed by, a `Popen` handle. -/
inductive Op where
  | wait
  | processExited (rc : Int)
  | sendSignal (sig : Nat)
  | terminate
  | kill
  | close
deriving DecidableEq, Repr

/-- Effect of one operation on the handle/broadcaster state. -/
def stepOp (s : ProcState) : Op → ProcState
  | .wait => (s.wait).1
  | .processExited rc => s.process_exited rc
  | .sendSignal _ => s
  | .terminate => s
  | .kill => s
  | .close => s

/-- Run a whole trace of operations. -/
def run (s : ProcState) (ops : List Op) : ProcState :=
  ops.foldl stepOp s

/-- Perform `n` successive `wait()` calls (state part). -/
def applyWaits : Nat → ProcState → ProcState
  | 0, s => s
  | n + 1, s => ((applyWaits n s).wait).1

/-! ## Handle close (`src/asyncio/subprocess.py`, lines 179-180)

`Popen.close` only forwards to the transport's `close()`.  The transport
(`base_subprocess`, code of this repository not under `src/`) is modelled
from the spec. -/

/-- Modelled from the spec: the process transport collaborator
(`base_subprocess.BaseSubprocessTransport.close`, not under `src/`).
Per the lifecycle contract, resources are released when `close` is
invoked and repeated closes must not fail or double-release: the
transport close marks itself closed and releases its resources on the
first call only.  `releases` counts actual resource releases. -/
structure SubprocessTransport where
  closed : Bool
  releases : Nat
deriving DecidableEq, Repr

/-- Transport close: release once, ignore repeats. -/
def SubprocessTransport.close (t : SubprocessTransport) : SubprocessTransport :=
  if t.closed then t else ⟨true, t.releases + 1⟩

/-- Embedding of `Popen.close` (subprocess.py lines 179-180): forward to
the transport's `close()`. -/
def Popen.closeHandle (t : SubprocessTransport) : SubprocessTransport :=
  t.close

/-- Call `Popen.close` `n` times in a row. -/
def Popen.closeHandleN : Nat → SubprocessTransport → SubprocessTransport
  | 0, t => t
  | n + 1, t => Popen.closeHandleN n (Popen.closeHandle t)

/-! ## Helper lemmas: resolving futures and the completion broadcast -/

namespace ProcState

lemma set_result_waiters (s : ProcState) (fid : Nat) (rc : Int) :
    (s.set_result fid rc).waiters = s.waiters := by
  unfold set_result
  split <;> rfl

lemma set_result_pid (s : ProcState) (fid : Nat) (rc : Int) :
    (s.set_result fid rc).pid = s.pid := by
  unfold set_result
  split <;> rfl

lemma set_result_futures (s : ProcState) (fid : Nat) (rc : Int) :
    (s.set_result fid rc).futures = s.futures.set fid (.resolved rc) := by
  unfold set_result
  split <;> rfl

lemma set_result_futures_length (s : ProcState) (fid : Nat) (rc : Int) :
    (s.set_result fid rc).futures.length = s.futures.length := by
  rw [set_result_futures, List.length_set]

lemma set_result_returncode_zero (s : ProcState) (rc : Int) :
    (s.set_result 0 rc).returncode = some rc := by
  unfold set_result
  simp

lemma set_result_returncode_ne (s : ProcState) {fid : Nat} (h : fid ≠ 0) (rc : Int) :
    (s.set_result fid rc).returncode = s.returncode := by
  unfold set_result
  simp [h]

lemma set_result_dead_zero (s : ProcState) (rc : Int) :
    (s.set_result 0 rc).dead = true := by
  unfold set_result
  simp

lemma set_result_dead_ne (s : ProcState) {fid : Nat} (h : fid ≠ 0) (rc : Int) :
    (s.set_result fid rc).dead = s.dead := by
  unfold set_result
  simp [h]

lemma foldl_set_result_waiters (l : List Nat) (s : ProcState) (rc : Int) :
    (l.foldl (fun t fid => t.set_result fid rc) s).waiters = s.waiters := by
  induction l generalizing s with
  | nil => rfl
  | cons f l ih => rw [List.foldl_cons, ih, set_result_waiters]

lemma foldl_set_result_pid (l : List Nat) (s : ProcState) (rc : Int) :
    (l.foldl (fun t fid => t.set_result fid rc) s).pid = s.pid := by
  induction l generalizing s with
  | nil => rfl
  | cons f l ih => rw [List.foldl_cons, ih, set_result_pid]

lemma foldl_set_result_length (l : List Nat) (s : ProcState) (rc : Int) :
    (l.foldl (fun t fid => t.set_result fid rc) s).futures.length =
      s.futures.length := by
  induction l generalizing s with
  | nil => rfl
  | cons f l ih => rw [List.foldl_cons, ih, set_result_futures_length]

lemma foldl_set_result_returncode (l : List Nat) (s : ProcState) (rc : Int) :
    (l.foldl (fun t fid => t.set_result fid rc) s).returncode =
      if 0 ∈ l then some rc else s.returncode := by
  induction l generalizing s with
  | nil => simp
  | cons f l ih =>
    rw [List.foldl_cons, ih]
    by_cases h0 : 0 ∈ l
    · simp [h0]
    · by_cases hf : f = 0
      · subst hf
        simp [h0, set_result_returncode_zero]
      · have hne : (0 : Nat) ≠ f := fun h => hf h.symm
        have hnc : (0 : Nat) ∉ f :: l := by simp [List.mem_cons, h0, hne]
        simp [h0, hnc, set_result_returncode_ne s hf]

lemma foldl_set_result_dead (l : List Nat) (s : ProcState) (rc : Int) :
    (l.foldl (fun t fid => t.set_result fid rc) s).dead =
      if 0 ∈ l then true else s.dead := by
  induction l generalizing s with
  | nil => simp
  | cons f l ih =>
    rw [List.foldl_cons, ih]
    by_cases h0 : 0 ∈ l
    · simp [h0]
    · by_cases hf : f = 0
      · subst hf
        simp [h0, set_result_dead_zero]
      · have hne : (0 : Nat) ≠ f := fun h => hf h.symm
        have hnc : (0 : Nat) ∉ f :: l := by simp [List.mem_cons, h0, hne]
        simp [h0, hnc, set_result_dead_ne s hf]

lemma foldl_set_result_get_not_mem (l : List Nat) (s : ProcState) (rc : Int)
    {j : Nat} (hj : j ∉ l) :
    ((l.foldl (fun t fid => t.set_result fid rc) s).futures)[j]? =
      s.futures[j]? := by
  induction l generalizing s with
  | nil => rfl
  | cons f l ih =>
    rw [List.foldl_cons, ih _ (fun h => hj (List.mem_cons_of_mem _ h))]
    rw [set_result_futures]
    have hfj : f ≠ j := fun h => hj (h ▸ List.mem_cons_self f l)
    rw [List.getElem?_set_ne hfj]

lemma foldl_set_result_get_mem (l : List Nat) (s : ProcState) (rc : Int)
    {j : Nat} (hj : j ∈ l) (hlen : j < s.futures.length) :
    ((l.foldl (fun t fid => t.set_result fid rc) s).futures)[j]? =
      some (.resolved rc) := by
  induction l generalizing s with
  | nil => cases hj
  | cons f l ih =>
    rw [List.foldl_cons]
    by_cases hmem : j ∈ l
    · exact ih _ hmem (by rw [set_result_futures_length]; exact hlen)
    · have hfj : f = j := by
        rcases List.mem_cons.mp hj with h | h
        · exact h.symm
        · exact absurd h hmem
      rw [foldl_set_result_get_not_mem l _ rc hmem, set_result_futures, hfj,
        List.getElem?_set_self hlen]

lemma process_exited_waiters (s : ProcState) (rc : Int) :
    (s.process_exited rc).waiters = [] := rfl

lemma process_exited_pid (s : ProcState) (rc : Int) :
    (s.process_exited rc).pid = s.pid := by
  show (s.waiters.foldl (fun t fid => t.set_result fid rc) s).pid = s.pid
  exact foldl_set_result_pid s.waiters s rc

lemma process_exited_returncode (s : ProcState) (rc : Int) :
    (s.process_exited rc).returncode =
      if 0 ∈ s.waiters then some rc else s.returncode := by
  show (s.waiters.foldl (fun t fid => t.set_result fid rc) s).returncode = _
  exact foldl_set_result_returncode s.waiters s rc

lemma process_exited_dead (s : ProcState) (rc : Int) :
    (s.process_exited rc).dead = if 0 ∈ s.waiters then true else s.dead := by
  show (s.waiters.foldl (fun t fid => t.set_result fid rc) s).dead = _
  exact foldl_set_result_dead s.waiters s rc

lemma process_exited_get_mem (s : ProcState) (rc : Int) {fid : Nat}
    (h : fid ∈ s.waiters) (hlen : fid < s.futures.length) :
    ((s.process_exited rc).futures)[fid]? = some (.resolved rc) := by
  show ((s.waiters.foldl (fun t fid => t.set_result fid rc) s).futures)[fid]? = _
  exact foldl_set_result_get_mem s.waiters s rc h hlen

lemma wait_fst_of_some (s : ProcState) {rc : Int} (h : s.returncode = some rc) :
    (s.wait).1 = s := by
  unfold wait
  rw [h]

lemma wait_of_some (s : ProcState) {rc : Int} (h : s.returncode = some rc) :
    s.wait = (s, .immediate rc) := by
  unfold wait
  rw [h]

lemma wait_fst_of_none (s : ProcState) (h : s.returncode = none) :
    (s.wait).1 =
      { s with futures := s.futures ++ [.pending],
               waiters := s.waiters ++ [s.futures.length] } := by
  unfold wait
  rw [h]

/-- State reached by `n` `wait()` calls on a freshly spawned running
handle: future 0 (the handle's callback waiter) plus one fresh pending
future per call, all registered once in the deque, in order. -/
lemma applyWaits_initRunning (n pid : Nat) :
    applyWaits n (initRunning pid) =
      ⟨List.replicate (n + 1) .pending, List.range (n + 1), none, false, pid⟩ := by
  induction n with
  | zero => rfl
  | succ n ih =>
    show ((applyWaits n (initRunning pid)).wait).1 = _
    rw [ih, wait_fst_of_none _ rfl]
    simp [List.range_succ, ← List.replicate_succ']

end ProcState

/-! ## Lifecycle invariant of the handle state -/

/-- Invariant tying the handle's attributes to the broadcaster: the dead
flag mirrors whether the exit code is cached; while running, the handle's
own callback waiter (future 0) is registered; once the code is cached,
the deque has been drained. -/
def Inv (s : ProcState) : Prop :=
  s.dead = s.returncode.isSome ∧
  (s.returncode = none → 0 ∈ s.waiters) ∧
  (s.returncode ≠ none → s.waiters = [])

lemma initRunning_inv (pid : Nat) : Inv (ProcState.initRunning pid) := by
  refine ⟨rfl, fun _ => ?_, fun h => absurd rfl h⟩
  simp [ProcState.initRunning]

lemma stepOp_inv {s : ProcState} (hInv : Inv s) (op : Op) : Inv (stepOp s op) := by
  obtain ⟨hdead, hrun, hdone⟩ := hInv
  cases op with
  | wait =>
    show Inv (s.wait).1
    cases h : s.returncode with
    | some rc => rw [s.wait_fst_of_some h]; exact ⟨hdead, hrun, hdone⟩
    | none =>
      rw [s.wait_fst_of_none h]
      refine ⟨by simpa [h] using hdead, fun _ => ?_, fun hc => absurd h (by simpa using hc)⟩
      exact List.mem_append_left _ (hrun h)
  | processExited rc =>
    show Inv (s.process_exited rc)
    cases h : s.returncode with
    | none =>
      have h0 : 0 ∈ s.waiters := hrun h
      refine ⟨?_, fun hc => ?_, fun _ => s.process_exited_waiters rc⟩
      · rw [s.process_exited_dead rc, s.process_exited_returncode rc]
        simp [h0]
      · rw [s.process_exited_returncode rc] at hc
        simp [h0] at hc
    | some rc0 =>
      have hw : s.waiters = [] := hdone (by simp [h])
      refine ⟨?_, fun hc => ?_, fun _ => s.process_exited_waiters rc⟩
      · rw [s.process_exited_dead rc, s.process_exited_returncode rc, hw]
        simpa [h] using hdead
      · rw [s.process_exited_returncode rc, hw] at hc
        simp [h] at hc
  | sendSignal sig => exact ⟨hdead, hrun, hdone⟩
  | terminate => exact ⟨hdead, hrun, hdone⟩
  | kill => exact ⟨hdead, hrun, hdone⟩
  | close => exact ⟨hdead, hrun, hdone⟩

lemma run_inv {s : ProcState} (hInv : Inv s) (ops : List Op) : Inv (run s ops) := by
  induction ops generalizing s with
  | nil => exact hInv
  | cons op ops ih => exact ih (stepOp_inv hInv op)

lemma stepOp_pid (s : ProcState) (op : Op) : (stepOp s op).pid = s.pid := by
  cases op with
  | wait =>
    show ((s.wait).1).pid = s.pid
    cases h : s.returncode with
    | some rc => rw [s.wait_fst_of_some h]
    | none => rw [s.wait_fst_of_none h]
  | processExited rc => exact s.process_exited_pid rc
  | sendSignal sig => rfl
  | terminate => rfl
  | kill => rfl
  | close => rfl

lemma run_pid (s : ProcState) (ops : List Op) : (run s ops).pid = s.pid := by
  induction ops generalizing s with
  | nil => rfl
  | cons op ops ih => rw [show run s (op :: ops) = run (stepOp s op) ops from rfl,
      ih, stepOp_pid]

lemma stepOp_rc_stable {s : ProcState} {rc : Int} (hInv : Inv s)
    (h : s.returncode = some rc) (op : Op) : (stepOp s op).returncode = some rc := by
  cases op with
  | wait =>
    show ((s.wait).1).returncode = some rc
    rw [s.wait_fst_of_some h, h]
  | processExited rc' =>
    have hw : s.waiters = [] := hInv.2.2 (by simp [h])
    rw [show stepOp s (.processExited rc') = s.process_exited rc' from rfl,
      s.process_exited_returncode rc', hw]
    simpa using h
  | sendSignal sig => exact h
  | terminate => exact h
  | kill => exact h
  | close => exact h

lemma run_rc_stable {s : ProcState} {rc : Int} (hInv : Inv s)
    (h : s.returncode = some rc) (ops : List Op) :
    (run s ops).returncode = some rc := by
  induction ops generalizing s with
  | nil => exact h
  | cons op ops ih =>
    exact ih (stepOp_inv hInv op) (stepOp_rc_stable hInv h op)

lemma stepOp_exited {s : ProcState} (hInv : Inv s) (h : s.returncode = none)
    (rc : Int) : (stepOp s (.processExited rc)).returncode = some rc := by
  have h0 : 0 ∈ s.waiters := hInv.2.1 h
  rw [show stepOp s (.processExited rc) = s.process_exited rc from rfl,
    s.process_exited_returncode rc]
  simp [h0]

lemma run_none_iff {s : ProcState} (hInv : Inv s) (h : s.returncode = none)
    (ops : List Op) :
    ((run s ops).returncode = none ↔ ∀ rc, Op.processExited rc ∉ ops) := by
  induction ops generalizing s with
  | nil => simp [run, h]
  | cons op ops ih =>
    rw [show run s (op :: ops) = run (stepOp s op) ops from rfl]
    cases op with
    | processExited rc =>
      have h1 : (stepOp s (.processExited rc)).returncode = some rc :=
        stepOp_exited hInv h rc
      have h2 : (run (stepOp s (.processExited rc)) ops).returncode = some rc :=
        run_rc_stable (stepOp_inv hInv _) h1 ops
      simp only [h2]
      constructor
      · intro hc; cases hc
      · intro hall; exact absurd (List.mem_cons_self _ _) (hall rc)
    | wait =>
      have h1 : ((s.wait).1).returncode = none := by rw [s.wait_fst_of_none h, h]
      rw [ih (stepOp_inv hInv .wait) h1]
      constructor
      · intro hall rc hc
        rcases List.mem_cons.mp hc with hc | hc
        · cases hc
        · exact hall rc hc
      · intro hall rc hc
        exact hall rc (List.mem_cons_of_mem _ hc)
    | sendSignal sig =>
      rw [ih (stepOp_inv hInv (.sendSignal sig)) h]
      constructor
      · intro hall rc hc
        rcases List.mem_cons.mp hc with hc | hc
        · cases hc
        · exact hall rc hc
      · intro hall rc hc
        exact hall rc (List.mem_cons_of_mem _ hc)
    | terminate =>
      rw [ih (stepOp_inv hInv .terminate) h]
      constructor
      · intro hall rc hc
        rcases List.mem_cons.mp hc with hc | hc
        · cases hc
        · exact hall rc hc
      · intro hall rc hc
        exact hall rc (List.mem_cons_of_mem _ hc)
    | kill =>
      rw [ih (stepOp_inv hInv .kill) h]
      constructor
      · intro hall rc hc
        rcases List.mem_cons.mp hc with hc | hc
        · cases hc
        · exact hall rc hc
      · intro hall rc hc
        exact hall rc (List.mem_cons_of_mem _ hc)
    | close =>
      rw [ih (stepOp_inv hInv .close) h]
      constructor
      · intro hall rc hc
        rcases List.mem_cons.mp hc with hc | hc
        · cases hc
        · exact hall rc hc
      · intro hall rc hc
        exact hall rc (List.mem_cons_of_mem _ hc)

/-! ## Claim theorems -/

/-- C2: every one of the `N` `wait()` calls registered (via the
broadcaster's waiter deque) before the process-exited event fires is
resolved with the identical exit code, exactly once (each registered
waiter occupies exactly one slot of the deque, and the broadcast drains
the deque, so no second delivery can occur); and a `wait()` call made
after the process has exited returns the cached exit code immediately,
with no registration and no suspension. -/
theorem claim_C2 (pid n : Nat) (rc : Int) (fid : Nat) :
    (fid ∈ (applyWaits n (ProcState.initRunning pid)).waiters →
      (((applyWaits n (ProcState.initRunning pid)).process_exited rc).futures)[fid]? =
        some (RcFut.resolved rc) ∧
      (applyWaits n (ProcState.initRunning pid)).waiters.count fid = 1) ∧
    ((applyWaits n (ProcState.initRunning pid)).process_exited rc).waiters = [] ∧
    ((applyWaits n (ProcState.initRunning pid)).process_exited rc).wait =
      ((applyWaits n (ProcState.initRunning pid)).process_exited rc,
        ProcState.WaitOutcome.immediate rc) := by
  rw [ProcState.applyWaits_initRunning n pid]
  refine ⟨fun hmem => ⟨?_, ?_⟩, ProcState.process_exited_waiters _ rc, ?_⟩
  · have hlt : fid < n + 1 := List.mem_range.mp hmem
    exact ProcState.process_exited_get_mem _ rc hmem
      (by simp only [List.length_replicate]; exact hlt)
  · exact List.count_eq_one_of_mem (List.nodup_range (n + 1)) hmem
  · have h0 : (0 : Nat) ∈ List.range (n + 1) := List.mem_range.mpr (Nat.succ_pos n)
    have hrc : ((⟨List.replicate (n + 1) .pending, List.range (n + 1),
        none, false, pid⟩ : ProcState).process_exited rc).returncode = some rc := by
      rw [ProcState.process_exited_returncode]
      simp
    exact ProcState.wait_of_some _ hrc

/-- Witness for C2 at a concrete instance: two `wait()` calls on a fresh
handle with pid 9, process exits with code 7. -/
theorem claim_C2_witness :
    (1 ∈ (applyWaits 2 (ProcState.initRunning 9)).waiters) ∧
    (((applyWaits 2 (ProcState.initRunning 9)).process_exited 7).futures)[1]? =
      some (RcFut.resolved 7) ∧
    (applyWaits 2 (ProcState.initRunning 9)).waiters.count 1 = 1 ∧
    ((applyWaits 2 (ProcState.initRunning 9)).process_exited 7).waiters = [] ∧
    ((applyWaits 2 (ProcState.initRunning 9)).process_exited 7).wait =
      ((applyWaits 2 (ProcState.initRunning 9)).process_exited 7,
        ProcState.WaitOutcome.immediate 7) := by
  have h := claim_C2 9 2 7 1
  have hmem : 1 ∈ (applyWaits 2 (ProcState.initRunning 9)).waiters := by decide
  exact ⟨hmem, (h.1 hmem).1, (h.1 hmem).2, h.2.1, h.2.2⟩

/-- C8: over every trace of operations and events on a handle spawned
while the process runs, the pid is immutable; the dead flag is true
exactly when a completion broadcast has been observed (so it flips
false→true at the first broadcast and is never reset); the exit code is
absent exactly while no broadcast has occurred, and once set it is never
changed (set exactly once); and its value is the code delivered by the
first broadcast of the trace. -/
theorem claim_C8 (pid : Nat) (ops more : List Op) :
    (run (ProcState.initRunning pid) ops).pid = pid ∧
    ((run (ProcState.initRunning pid) ops).dead = true ↔
      ∃ rc, Op.processExited rc ∈ ops) ∧
    ((run (ProcState.initRunning pid) ops).returncode = none ↔
      ∀ rc, Op.processExited rc ∉ ops) ∧
    (∀ rc, (run (ProcState.initRunning pid) ops).returncode = some rc →
      (run (ProcState.initRunning pid) (ops ++ more)).returncode = some rc) ∧
    (∀ ops1 rc ops2, ops = ops1 ++ Op.processExited rc :: ops2 →
      (∀ rc', Op.processExited rc' ∉ ops1) →
      (run (ProcState.initRunning pid) ops).returncode = some rc) := by
  have hinv : Inv (ProcState.initRunning pid) := initRunning_inv pid
  have hnone : (ProcState.initRunning pid).returncode = none := rfl
  refine ⟨run_pid _ ops, ?_, run_none_iff hinv hnone ops, ?_, ?_⟩
  · have hd := (run_inv hinv ops).1
    rw [hd]
    have hiff := run_none_iff hinv hnone ops
    constructor
    · intro hsome
      by_contra hno
      push_neg at hno
      rw [hiff.mpr hno] at hsome
      simp at hsome
    · rintro ⟨rc, hmem⟩
      cases hrc : (run (ProcState.initRunning pid) ops).returncode with
      | none => exact absurd hmem (hiff.mp hrc rc)
      | some r => simp [hrc]
  · intro rc hrc
    rw [show run (ProcState.initRunning pid) (ops ++ more) =
      run (run (ProcState.initRunning pid) ops) more from
        List.foldl_append _ _ ops more]
    exact run_rc_stable (run_inv hinv ops) hrc more
  · intro ops1 rc ops2 heq hno
    subst heq
    rw [show run (ProcState.initRunning pid) (ops1 ++ Op.processExited rc :: ops2) =
      run (run (ProcState.initRunning pid) ops1) (Op.processExited rc :: ops2) from
        List.foldl_append _ _ ops1 _]
    have hinv1 : Inv (run (ProcState.initRunning pid) ops1) := run_inv hinv ops1
    have h1 : (run (ProcState.initRunning pid) ops1).returncode = none :=
      (run_none_iff hinv hnone ops1).mpr hno
    rw [show run (run (ProcState.initRunning pid) ops1)
        (Op.processExited rc :: ops2) =
      run (stepOp (run (ProcState.initRunning pid) ops1)
        (Op.processExited rc)) ops2 from rfl]
    exact run_rc_stable (stepOp_inv hinv1 _) (stepOp_exited hinv1 h1 rc) ops2

/-- Witness for C8 at a concrete trace: one `wait`, then the process
exits with code 2, then a further `wait`. -/
theorem claim_C8_witness :
    (run (ProcState.initRunning 5) [Op.wait, Op.processExited 2]).pid = 5 ∧
    (run (ProcState.initRunning 5) [Op.wait, Op.processExited 2]).returncode = some 2 ∧
    (run (ProcState.initRunning 5)
      ([Op.wait, Op.processExited 2] ++ [Op.wait])).returncode = some 2 ∧
    (run (ProcState.initRunning 5) [Op.wait, Op.processExited 2]).dead = true := by
  have h := claim_C8 5 [Op.wait, Op.processExited 2] [Op.wait]
  have hrc : (run (ProcState.initRunning 5)
      [Op.wait, Op.processExited 2]).returncode = some 2 :=
    h.2.2.2.2 [Op.wait] 2 [] rfl (by intro rc' hc; simp at hc)
  exact ⟨h.1, hrc, h.2.2.2.1 2 hrc, h.2.1.mpr ⟨2, by simp⟩⟩

/-- C3: on the failure path of the timeout-bounded helper `call` — the
awaited `wait()` timed out or raised — and with the handle still alive
(as on the timeout path, where the process never exited), the helper
makes exactly one `kill()` transport call followed by exactly one
`close()` transport call (kill before close) and re-raises the original
failure; on the success path `close()` is still called (cleanup is
unconditional), no `kill()` occurs, and the exit code is returned. -/
theorem claim_C3 (e : PyExc) (rc : Int) :
    call false (WaitForOutcome.failed e) =
      ([TransportCall.kill, TransportCall.close], Except.error e) ∧
    (call false (WaitForOutcome.failed e)).1.count TransportCall.kill = 1 ∧
    (call false (WaitForOutcome.failed e)).1.count TransportCall.close = 1 ∧
    call false (WaitForOutcome.completed rc) =
      ([TransportCall.close], Except.ok rc) ∧
    (call false (WaitForOutcome.completed rc)).1.count TransportCall.kill = 0 := by
  refine ⟨rfl, ?_, ?_, rfl, ?_⟩ <;> rfl

/-- C4: with the dead flag set, each of `send_signal`, `terminate` and
`kill` fails with `ProcessLookupError` and makes zero calls into the
transport; with the flag clear, each forwards exactly its own call. -/
theorem claim_C4 (sig : Nat) :
    Popen.send_signal true sig = ([], Except.error PyExc.processLookupError) ∧
    Popen.terminate true = ([], Except.error PyExc.processLookupError) ∧
    Popen.kill true = ([], Except.error PyExc.processLookupError) ∧
    Popen.send_signal false sig = ([TransportCall.send_signal sig], Except.ok ()) ∧
    Popen.terminate false = ([TransportCall.terminate], Except.ok ()) ∧
    Popen.kill false = ([TransportCall.kill], Except.ok ()) := by
  exact ⟨rfl, rfl, rfl, rfl, rfl, rfl⟩

/-- C5: for the flow-controlled writer with a suspended (pending) drain
waiter while paused: `resume_writing` clears the pause, empties the
waiter slot and resolves the waiter with success; a connection-loss event
carrying no error resolves it with success, and one carrying an error
resolves it with that error — in each case the slot is emptied, so no
drain caller remains suspended after pipe teardown. -/
theorem claim_C5 (w : WriteSubprocessPipeStreamProto) (e : PyExc)
    (hp : w.paused = true) (hw : w.drain_waiter = some FutSlot.pending) :
    w.resume_writing = some (⟨false, none⟩, some Resolution.success) ∧
    w.connection_lost none =
      ({ w with drain_waiter := none }, some Resolution.success) ∧
    w.connection_lost (some e) =
      ({ w with drain_waiter := none }, some (Resolution.failure e)) := by
  refine ⟨?_, ?_, ?_⟩ <;>
    simp [WriteSubprocessPipeStreamProto.resume_writing,
      WriteSubprocessPipeStreamProto.connection_lost, hp, hw]

/-- Witness for C5: paused writer with a pending drain waiter, loss
carrying a broken-pipe error. -/
theorem claim_C5_witness :
    (⟨true, some FutSlot.pending⟩ :
        WriteSubprocessPipeStreamProto).resume_writing =
      some (⟨false, none⟩, some Resolution.success) ∧
    (⟨true, some FutSlot.pending⟩ :
        WriteSubprocessPipeStreamProto).connection_lost none =
      (⟨true, none⟩, some Resolution.success) ∧
    (⟨true, some FutSlot.pending⟩ :
        WriteSubprocessPipeStreamProto).connection_lost (some PyExc.brokenPipe) =
      (⟨true, none⟩, some (Resolution.failure PyExc.brokenPipe)) := by
  exact claim_C5 ⟨true, some FutSlot.pending⟩ PyExc.brokenPipe rfl rfl

/-- C7: for a pipe-closed event, fd 0 closes the stdin writer when
present and forwards the closure (with its error argument) to the
protocol's own connection-lost finalization; fd 1/2 with no error mark
the corresponding reader (when present) at EOF, and with an error mark it
errored — and in the per-pipe variant the read-pipe protocol's
`connection_lost` does the same to its owned reader. -/
theorem claim_C7 (p : SubprocessStreamProtocol) (exc : Option PyExc) (e : PyExc)
    (q : ReadSubprocessPipeStreamProto) :
    p.pipe_connection_lost 0 exc =
      { p with stdin := p.stdin.map StreamWriter.close, connLost := some exc } ∧
    p.pipe_connection_lost 1 none =
      { p with stdout := p.stdout.map StreamReader.feed_eof } ∧
    p.pipe_connection_lost 1 (some e) =
      { p with stdout := p.stdout.map (fun r => r.set_exception e) } ∧
    p.pipe_connection_lost 2 none =
      { p with stderr := p.stderr.map StreamReader.feed_eof } ∧
    p.pipe_connection_lost 2 (some e) =
      { p with stderr := p.stderr.map (fun r => r.set_exception e) } ∧
    q.connection_lost none = ⟨q.stream_reader.feed_eof⟩ ∧
    q.connection_lost (some e) = ⟨q.stream_reader.set_exception e⟩ := by
  obtain ⟨si, so, se, cl⟩ := p
  refine ⟨?_, ?_, ?_, ?_, ?_, rfl, rfl⟩
  · cases si <;> rfl
  · cases so <;> rfl
  · cases so <;> rfl
  · cases se <;> rfl
  · cases se <;> rfl

/-- C9: `close()` on the process handle is idempotent: any number of
repeated calls after the first releases the transport's resources exactly
once, raises no error, and leaves the transport in the same state as a
single close. -/
theorem claim_C9 (n : Nat) (t : SubprocessTransport) :
    Popen.closeHandleN (n + 1) ⟨false, 0⟩ = ⟨true, 1⟩ ∧
    Popen.closeHandle (Popen.closeHandle t) = Popen.closeHandle t := by
  constructor
  · have hstable : ∀ m k, Popen.closeHandleN m ⟨true, k⟩ = ⟨true, k⟩ := by
      intro m
      induction m with
      | zero => intro k; rfl
      | succ m ih =>
        intro k
        show Popen.closeHandleN m (Popen.closeHandle ⟨true, k⟩) = _
        have : Popen.closeHandle ⟨true, k⟩ = ⟨true, k⟩ := rfl
        rw [this, ih]
    show Popen.closeHandleN n (Popen.closeHandle ⟨false, 0⟩) = _
    have : Popen.closeHandle ⟨false, 0⟩ = ⟨true, 1⟩ := rfl
    rw [this, hstable]
  · unfold Popen.closeHandle SubprocessTransport.close
    rcases t with ⟨c, r⟩
    cases c <;> simp

/-- C6 counterexample: in the per-pipe variant
(`subprocess_stream.py`, lines 97-99), a data event on a descriptor with
no registered pipe is not a silent no-op — `self._pipes[fd]` raises
`KeyError`.  Concretely, with pipes registered for descriptors 1 and 2,
data arriving on descriptor 7 raises. -/
theorem claim_C6_counterexample :
    StreamVariantProtocol.pipe_data_received
      ⟨[(1, ⟨StreamReader.new⟩), (2, ⟨StreamReader.new⟩)]⟩ 7 [42] =
      Except.error PyExc.keyError := rfl

/-- C6 (amended): in the demultiplexing protocol (`subprocess.py`), data
on descriptor 1 is fed only to the stdout reader, data on descriptor 2
only to the stderr reader, and data on any other descriptor is a silent
no-op (no exception, no reader touched); in the per-pipe variant
(`subprocess_stream.py`), a descriptor with no registered pipe instead
raises `KeyError`. -/
theorem claim_C6 (p : SubprocessStreamProtocol) (data : Bytes) (fd : Nat) :
    p.pipe_data_received 1 data =
      { p with stdout := p.stdout.map (fun r => r.feed_data data) } ∧
    p.pipe_data_received 2 data =
      { p with stderr := p.stderr.map (fun r => r.feed_data data) } ∧
    (fd ≠ 1 → fd ≠ 2 → p.pipe_data_received fd data = p) ∧
    (∀ q : StreamVariantProtocol, q.pipes.lookup fd = none →
      q.pipe_data_received fd data = Except.error PyExc.keyError) := by
  obtain ⟨si, so, se, cl⟩ := p
  refine ⟨?_, ?_, ?_, ?_⟩
  · cases so <;> rfl
  · cases se <;> rfl
  · intro h1 h2
    simp [SubprocessStreamProtocol.pipe_data_received, h1, h2]
  · intro q hq
    unfold StreamVariantProtocol.pipe_data_received
    rw [hq]

/-- Witness for the amended C6: data on descriptor 7 leaves a protocol
with both readers untouched; in the variant, descriptor 9 with only
descriptor 1 registered raises `KeyError`. -/
theorem claim_C6_witness :
    SubprocessStreamProtocol.pipe_data_received
      ⟨none, some StreamReader.new, some StreamReader.new, none⟩ 7 [42] =
      ⟨none, some StreamReader.new, some StreamReader.new, none⟩ ∧
    StreamVariantProtocol.pipe_data_received ⟨[(1, ⟨StreamReader.new⟩)]⟩ 9 [1] =
      Except.error PyExc.keyError := by
  have h7 := claim_C6 ⟨none, some StreamReader.new, some StreamReader.new, none⟩ [42] 7
  have h9 := claim_C6 ⟨none, some StreamReader.new, some StreamReader.new, none⟩ [1] 9
  exact ⟨h7.2.2.1 (by decide) (by decide), h9.2.2.2 ⟨[(1, ⟨StreamReader.new⟩)]⟩ rfl⟩

/-- C1: a `communicate(input)` call runs its three sub-operations — the
stdin feed when `input` is truthy, the stdout read-to-end when the stdout
reader exists, the stderr read-to-end when the stderr reader exists, each
otherwise the no-op — and all of their events occur before the single
`wait()` call, which is the last event of the call (the three are joined,
then `wait()` populates the exit code); the call returns the pair of the
stdout and stderr payloads, a no-op sub-operation contributing an absent
payload. -/
theorem claim_C1 (env : CommEnv) :
    (communicate env).1 =
      (match env.input with
        | some i => if i = [] then [] else
            [CommEvent.stdin_write i, CommEvent.stdin_drain, CommEvent.stdin_close]
        | none => []) ++
      (match env.stdoutPayload with
        | some _ => [CommEvent.stream_read 1, CommEvent.pipe_transport_close 1]
        | none => []) ++
      (match env.stderrPayload with
        | some _ => [CommEvent.stream_read 2, CommEvent.pipe_transport_close 2]
        | none => []) ++ [CommEvent.wait_called] ∧
    (communicate env).1.getLast? = some CommEvent.wait_called ∧
    (communicate env).1.count CommEvent.wait_called = 1 ∧
    (communicate env).2 = (env.stdoutPayload, env.stderrPayload) := by
  obtain ⟨inp, op, ep⟩ := env
  cases inp with
  | none => cases op <;> cases ep <;> exact ⟨rfl, rfl, rfl, rfl⟩
  | some i =>
    by_cases hi : i = []
    · subst hi
      cases op <;> cases ep <;> exact ⟨rfl, rfl, rfl, rfl⟩
    · cases op <;> cases ep <;>
        refine ⟨?_, ?_, ?_, rfl⟩ <;>
          simp [communicate, feed_stdin, noopCoro, read_stream, hi,
            List.count_cons, List.count_append, List.getLast?_append]

/-- C10: when `input` is `None` or the empty byte string, the stdin
sub-operation of `communicate` is the immediate no-op — no write to
stdin, no drain, no close of the stdin endpoint; the stdin endpoint is
written to, drained and closed exactly when `input` is non-empty. -/
theorem claim_C10 (env : CommEnv) :
    ((env.input = none ∨ env.input = some []) →
      (communicate env).1.filter CommEvent.touchesStdin = []) ∧
    (∀ i, env.input = some i → i ≠ [] →
      (communicate env).1.filter CommEvent.touchesStdin =
        [CommEvent.stdin_write i, CommEvent.stdin_drain, CommEvent.stdin_close]) := by
  obtain ⟨inp, op, ep⟩ := env
  constructor
  · rintro (h | h) <;> (simp only at h; subst h) <;>
      cases op <;> cases ep <;> rfl
  · intro i hh hne
    simp only at hh
    subst hh
    cases op <;> cases ep <;>
      simp [communicate, feed_stdin, noopCoro, read_stream, hne,
        CommEvent.touchesStdin, List.filter_append]

/-- Witness for C10: `None` input, empty input, and the non-empty
input `[3]`. -/
theorem claim_C10_witness :
    (communicate ⟨none, some [1], none⟩).1.filter CommEvent.touchesStdin = [] ∧
    (communicate ⟨some [], some [1], none⟩).1.filter CommEvent.touchesStdin = [] ∧
    (communicate ⟨some [3], some [1], none⟩).1.filter CommEvent.touchesStdin =
      [CommEvent.stdin_write [3], CommEvent.stdin_drain, CommEvent.stdin_close] := by
  exact ⟨(claim_C10 ⟨none, some [1], none⟩).1 (Or.inl rfl),
    (claim_C10 ⟨some [], some [1], none⟩).1 (Or.inr rfl),
    (claim_C10 ⟨some [3], some [1], none⟩).2 [3] rfl (by decide)⟩

end AsyncioSpec
